import Mathlib

/-
Shallow embedding of `src/mnemonic/src/app/services/game.service.ts`
(Angular service `GameService` of the Mnemonic-Trainer repository).

The service is a synchronous state machine; Angular signals are modelled as
plain fields of a `GameState` record, and each method becomes a pure function
`GameState → GameState`.  `Math.random()` inside `#generateSequence` is
modelled by a choice oracle `c : Nat → Nat`: the i-th draw of a call uses
`c i % availableTiles.length`, which ranges over exactly the values
`Math.floor(Math.random() * availableTiles.length)` can take.  Tile ids are
`Int` because `handlePlayerTileClick` accepts any JS number, including ids
that belong to no tile.
-/

namespace Mnemonic

/-- Phases of the game state machine (the string union type of the
`gameState` signal). -/
inductive Phase where
  | idle
  | sequence
  | input
  | checking
  | over
deriving DecidableEq, Repr

/-- One grid tile (`../models/tile.model`), with the flag set used by
`game.service.ts`. -/
structure Tile where
  id : Int
  lit : Bool
  selectedByPlayer : Bool
  isCorrectAndClicked : Bool
  isCorrectAndNotClicked : Bool
  isIncorrectAndClicked : Bool
deriving DecidableEq, Repr

/-- The whole mutable state of `GameService`: the five signals plus the three
private fields `#sequence`, `#playerInput`, `#isInCombo`. -/
structure GameState where
  currentLevel : Nat
  score : Nat
  gameState : Phase
  gridSize : Nat
  tiles : List Tile
  numTilesToLight : Nat
  sequence : List Int
  playerInput : List Int
  isInCombo : Bool
deriving DecidableEq, Repr

/-- The tile pushed for loop index `i` in `initializeGrid`:
`{ id: i, lit: false, selectedByPlayer: false, isCorrectAndClicked: false,
isCorrectAndNotClicked: false, isIncorrectAndClicked: false }`. -/
def freshTile (i : Nat) : Tile :=
  { id := (i : Int)
    lit := false
    selectedByPlayer := false
    isCorrectAndClicked := false
    isCorrectAndNotClicked := false
    isIncorrectAndClicked := false }

/-- `initializeGrid()`: rebuilds `tiles` to `gridSize * gridSize` fresh tiles
with sequential ids and clears `#playerInput`. -/
def initializeGrid (s : GameState) : GameState :=
  { s with
    tiles := (List.range (s.gridSize * s.gridSize)).map freshTile
    playerInput := [] }

/-- `resetGame()`: resets the session fields and sets the phase to `idle`.
Note that the source does NOT call `initializeGrid` here. -/
def resetGame (s : GameState) : GameState :=
  { s with
    currentLevel := 1
    score := 0
    isInCombo := false
    numTilesToLight := 3
    gridSize := 3
    gameState := Phase.idle }

/-- The body of the `for` loop of `#generateSequence`: draw `n` tiles from
`avail`, each draw removing (`splice`) the element at index
`c step % avail.length`; stop early (`break`) when `avail` is exhausted. -/
def drawSeq (c : Nat → Nat) : Nat → Nat → List Int → List Int
  | _, 0, _ => []
  | step, n + 1, avail =>
    if avail.isEmpty then []
    else
      let idx := c step % avail.length
      avail.getD idx 0 :: drawSeq c (step + 1) n (avail.eraseIdx idx)

/-- `#generateSequence()`: regenerates `#sequence` by drawing
`numTilesToLight` ids from the current tile ids. -/
def generateSequence (c : Nat → Nat) (s : GameState) : GameState :=
  { s with sequence := drawSeq c 0 s.numTilesToLight (s.tiles.map Tile.id) }

/-- The per-tile reset of `nextRound`: clear all five flags, keep the id. -/
def resetTileFlags (t : Tile) : Tile :=
  { t with
    lit := false
    selectedByPlayer := false
    isCorrectAndClicked := false
    isCorrectAndNotClicked := false
    isIncorrectAndClicked := false }

/-- `nextRound()`: clears `#playerInput`, re-arms the combo, clears every
tile's flags, regenerates the sequence and sets the phase to `sequence`. -/
def nextRound (c : Nat → Nat) (s : GameState) : GameState :=
  let s1 := { s with
    playerInput := []
    isInCombo := true
    tiles := s.tiles.map resetTileFlags }
  let s2 := generateSequence c s1
  { s2 with gameState := Phase.sequence }

/-- `startGame()`: resets the session fields, re-initializes the grid, starts
the first round and sets the phase to `sequence`. -/
def startGame (c : Nat → Nat) (s : GameState) : GameState :=
  let s1 := { s with
    currentLevel := 1
    score := 0
    isInCombo := false
    numTilesToLight := 3
    gridSize := 3 }
  let s2 := initializeGrid s1
  let s3 := nextRound c s2
  { s3 with gameState := Phase.sequence }

/-- The `correctSelections` condition of `#checkRound`:
`playerInput.every(id => sequence.includes(id)) && playerInput.length ===
sequence.length && sequence.every(id => playerInput.includes(id))`. -/
def correctSelections (s : GameState) : Prop :=
  (∀ id ∈ s.playerInput, id ∈ s.sequence) ∧
  s.playerInput.length = s.sequence.length ∧
  (∀ id ∈ s.sequence, id ∈ s.playerInput)

instance decCorrectSelections (s : GameState) : Decidable (correctSelections s) := by
  unfold correctSelections
  exact inferInstance

/-- The per-tile annotation of the failure branch of `#checkRound`. -/
def markOutcome (seq inp : List Int) (t : Tile) : Tile :=
  { t with
    isCorrectAndClicked := decide (t.id ∈ seq) && decide (t.id ∈ inp)
    isCorrectAndNotClicked := decide (t.id ∈ seq) && !decide (t.id ∈ inp)
    isIncorrectAndClicked := !decide (t.id ∈ seq) && decide (t.id ∈ inp) }

/-- `#checkRound()`: sets the phase to `checking`; on `correctSelections`
bumps level and `numTilesToLight`, grows the grid when
`numTilesToLight > gridSize² / 2` (JS real division, rendered as
`2 * numTilesToLight > gridSize²` over the integers), re-initializes the grid
and starts the next round; otherwise drops the combo, annotates every tile
and sets the phase to `over`. -/
def checkRound (c : Nat → Nat) (s : GameState) : GameState :=
  let s0 := { s with gameState := Phase.checking }
  if correctSelections s0 then
    let s1 := { s0 with
      currentLevel := s0.currentLevel + 1
      numTilesToLight := s0.numTilesToLight + 1 }
    let capacity := s1.gridSize * s1.gridSize
    let s2 :=
      if 2 * s1.numTilesToLight > capacity then
        { s1 with gridSize := s1.gridSize + 1 }
      else s1
    nextRound c (initializeGrid s2)
  else
    let s1 := { s0 with
      isInCombo := false
      tiles := s0.tiles.map (markOutcome s0.sequence s0.playerInput) }
    { s1 with gameState := Phase.over }

/-- Lines 88-109 of `handlePlayerTileClick`, after both early returns and
before the round-completion check: push the id onto `#playerInput`, mark the
tile selected, and apply the scoring rule.  `sequence[currentIndex] ===
tileId` is `s.sequence[currentIndex]? = some tileId` (a JS out-of-bounds read
yields `undefined`, never equal to a number). -/
def applyClickScoring (s : GameState) (tileId : Int) : GameState :=
  let s1 := { s with
    playerInput := s.playerInput ++ [tileId]
    tiles := s.tiles.map fun (t : Tile) =>
      if t.id = tileId then { t with selectedByPlayer := true } else t }
  let currentIndex := s1.playerInput.length - 1
  if tileId ∈ s1.sequence then
    if s1.isInCombo ∧ s1.sequence[currentIndex]? = some tileId then
      { s1 with score := s1.score + 2 }
    else
      { s1 with isInCombo := false, score := s1.score + 1 }
  else
    { s1 with isInCombo := false }

/-- `handlePlayerTileClick(tileId)`: a no-op unless the phase is `input` and
the id is new; otherwise score the click and, when `#playerInput` has reached
the sequence length, run `#checkRound`. -/
def handlePlayerTileClick (c : Nat → Nat) (s : GameState) (tileId : Int) : GameState :=
  if s.gameState ≠ Phase.input then s
  else if tileId ∈ s.playerInput then s
  else
    let s1 := applyClickScoring s tileId
    if s1.playerInput.length = s1.sequence.length then checkRound c s1 else s1

/-- Modelled from the spec: the timed `sequence → input` transition is owned
by the rendering layer, not by `game.service.ts` ("it is responsible for the
timed transition from `sequence`→`input`").  It only flips the phase. -/
def beginInputPhase (s : GameState) : GameState :=
  if s.gameState = Phase.sequence then { s with gameState := Phase.input } else s

/-- The state built by the service constructor: the signal initial values,
then `initializeGrid()`. -/
def initialState : GameState :=
  initializeGrid
    { currentLevel := 1
      score := 0
      gameState := Phase.idle
      gridSize := 3
      tiles := []
      numTilesToLight := 3
      sequence := []
      playerInput := []
      isInCombo := false }

/-- A concrete choice oracle (every draw picks index 0), used to instantiate
universally quantified theorems at concrete inputs. -/
def exC : Nat → Nat := fun _ => 0

/-- A 3×3 state in phase `input` with a fresh combo, used to instantiate
theorems at concrete inputs. -/
def exS1 : GameState :=
  { currentLevel := 1
    score := 0
    gameState := Phase.input
    gridSize := 3
    tiles := (List.range 9).map freshTile
    numTilesToLight := 3
    sequence := [2, 5, 8]
    playerInput := []
    isInCombo := true }

/-- A 3×3 state whose player input is set-equal (but not pointwise equal) to
the sequence. -/
def exS2 : GameState :=
  { exS1 with sequence := [0, 1, 2], playerInput := [2, 0, 1], isInCombo := false }

/-- A 3×3 state whose full-length player input mismatches the sequence. -/
def exS3 : GameState :=
  { exS1 with sequence := [0, 1], playerInput := [0, 5], isInCombo := false }

/-- A 3×3 state in phase `input` where one more click still leaves the input
shorter than the sequence. -/
def exS5 : GameState :=
  { exS1 with sequence := [2, 5, 8], playerInput := [] }

/-- A 2×2 state in phase `input` where one more click completes the round. -/
def exS9 : GameState :=
  { currentLevel := 1
    score := 0
    gameState := Phase.input
    gridSize := 2
    tiles := (List.range 4).map freshTile
    numTilesToLight := 2
    sequence := [0, 1]
    playerInput := [0]
    isInCombo := false }

/-- A reachable state with a 4×4 grid: start the game and play two successful
rounds (clicking each generated sequence in order); the second success makes
`numTilesToLight = 5` exceed half of the 9-tile capacity, so the grid grows
to `gridSize = 4` with 16 tiles. -/
def exGrown : GameState :=
  let r1 := beginInputPhase (startGame exC initialState)
  let r2 := handlePlayerTileClick exC
    (handlePlayerTileClick exC (handlePlayerTileClick exC r1 0) 1) 2
  let r3 := beginInputPhase r2
  handlePlayerTileClick exC
    (handlePlayerTileClick exC
      (handlePlayerTileClick exC (handlePlayerTileClick exC r3 0) 1) 2) 3

/-! ## Helper lemmas about `drawSeq` (the `#generateSequence` loop) -/

theorem drawSeq_length (c : Nat → Nat) (n : Nat) :
    ∀ (step : Nat) (avail : List Int),
      (drawSeq c step n avail).length = min n avail.length := by
  induction n with
  | zero => intro step avail; simp [drawSeq]
  | succ n ih =>
    intro step avail
    simp only [drawSeq]
    by_cases h : avail.isEmpty = true
    · have : avail = [] := List.isEmpty_iff.mp h
      simp [h, this]
    · have hne : avail ≠ [] := fun he => h (by simp [he])
      have hpos : 0 < avail.length := List.length_pos.mpr hne
      have hidx : c step % avail.length < avail.length := Nat.mod_lt _ hpos
      rw [if_neg h, List.length_cons, ih (step + 1), List.length_eraseIdx,
        if_pos hidx]
      omega

theorem drawSeq_subset (c : Nat → Nat) (n : Nat) :
    ∀ (step : Nat) (avail : List Int) (x : Int),
      x ∈ drawSeq c step n avail → x ∈ avail := by
  induction n with
  | zero => intro step avail x hx; simp [drawSeq] at hx
  | succ n ih =>
    intro step avail x hx
    simp only [drawSeq] at hx
    by_cases h : avail.isEmpty = true
    · rw [if_pos h] at hx; simp at hx
    · have hne : avail ≠ [] := fun he => h (by simp [he])
      have hpos : 0 < avail.length := List.length_pos.mpr hne
      have hidx : c step % avail.length < avail.length := Nat.mod_lt _ hpos
      rw [if_neg h] at hx
      rcases List.mem_cons.mp hx with heq | hmem
      · rw [heq, List.getD_eq_getElem _ _ hidx]
        exact List.getElem_mem hidx
      · exact List.Sublist.mem (ih (step + 1) _ x hmem) (List.eraseIdx_sublist avail _)

theorem getD_not_mem_eraseIdx (l : List Int) :
    ∀ (i : Nat), l.Nodup → i < l.length → l.getD i 0 ∉ l.eraseIdx i := by
  induction l with
  | nil => intro i _ hi; simp at hi
  | cons a tl ih =>
    intro i hnd hi
    cases i with
    | zero => simpa using (List.nodup_cons.mp hnd).1
    | succ i =>
      have htl : tl.Nodup := (List.nodup_cons.mp hnd).2
      have ha : a ∉ tl := (List.nodup_cons.mp hnd).1
      have hi' : i < tl.length := by simpa using hi
      intro hmem
      simp only [List.getD_cons_succ, List.eraseIdx_cons_succ, List.mem_cons] at hmem
      rcases hmem with heq | hmem
      · have hm : tl.getD i 0 ∈ tl := by
          rw [List.getD_eq_getElem _ _ hi']; exact List.getElem_mem hi'
        rw [heq] at hm; exact ha hm
      · exact ih i htl hi' hmem

theorem drawSeq_nodup (c : Nat → Nat) (n : Nat) :
    ∀ (step : Nat) (avail : List Int), avail.Nodup → (drawSeq c step n avail).Nodup := by
  induction n with
  | zero => intro step avail _; simp [drawSeq]
  | succ n ih =>
    intro step avail hnd
    simp only [drawSeq]
    by_cases h : avail.isEmpty = true
    · simp [h]
    · have hne : avail ≠ [] := fun he => h (by simp [he])
      have hpos : 0 < avail.length := List.length_pos.mpr hne
      have hidx : c step % avail.length < avail.length := Nat.mod_lt _ hpos
      rw [if_neg h]
      refine List.nodup_cons.mpr ⟨?_, ih (step + 1) _
        ((List.eraseIdx_sublist avail _).nodup hnd)⟩
      intro hmem
      exact getD_not_mem_eraseIdx avail _ hnd hidx
        (drawSeq_subset c n (step + 1) _ _ hmem)

/-! ## Helper lemmas about `applyClickScoring` -/

theorem applyClickScoring_frame (s : GameState) (tileId : Int) :
    (applyClickScoring s tileId).playerInput = s.playerInput ++ [tileId] ∧
    (applyClickScoring s tileId).sequence = s.sequence ∧
    (applyClickScoring s tileId).gameState = s.gameState ∧
    (applyClickScoring s tileId).currentLevel = s.currentLevel ∧
    (applyClickScoring s tileId).gridSize = s.gridSize ∧
    (applyClickScoring s tileId).numTilesToLight = s.numTilesToLight ∧
    (applyClickScoring s tileId).tiles = s.tiles.map fun (t : Tile) =>
      if t.id = tileId then { t with selectedByPlayer := true } else t := by
  simp only [applyClickScoring]
  split_ifs <;> exact ⟨rfl, rfl, rfl, rfl, rfl, rfl, rfl⟩

theorem applyClickScoring_cases (s : GameState) (tileId : Int) :
    ((s.isInCombo = true ∧ s.sequence[s.playerInput.length]? = some tileId) →
      (applyClickScoring s tileId).score = s.score + 2 ∧
      (applyClickScoring s tileId).isInCombo = true) ∧
    (¬(s.isInCombo = true ∧ s.sequence[s.playerInput.length]? = some tileId) →
      (applyClickScoring s tileId).isInCombo = false ∧
      (tileId ∈ s.sequence → (applyClickScoring s tileId).score = s.score + 1) ∧
      (tileId ∉ s.sequence → (applyClickScoring s tileId).score = s.score)) := by
  have hidx : (s.playerInput ++ [tileId]).length - 1 = s.playerInput.length := by
    simp
  by_cases hmem : tileId ∈ s.sequence
  · by_cases hat : s.isInCombo = true ∧ s.sequence[s.playerInput.length]? = some tileId
    · simp [applyClickScoring, hidx, hmem, hat]
    · simp [applyClickScoring, hidx, hmem, hat]
  · have hat : ¬(s.isInCombo = true ∧ s.sequence[s.playerInput.length]? = some tileId) := by
      rintro ⟨-, hsome⟩
      obtain ⟨hlt, hget⟩ := List.getElem?_eq_some.mp hsome
      exact hmem (hget ▸ List.getElem_mem hlt)
    simp [applyClickScoring, hidx, hmem, hat]

/-! ## Claim theorems -/

/-- C1: for a click handled during phase `input` on a tile id not already in
`PlayerInput`, the scoring step of `handlePlayerTileClick` (lines 93-109 of
`game.service.ts`, i.e. the part of the handler before the round-completion
check) awards +2 and keeps the combo alive when the combo is alive and the
clicked id equals the sequence entry at this click's position; otherwise it
sets the combo to false and awards +1 exactly when the id occurs anywhere in
the sequence, and +0 when it does not. -/
theorem c1_scoring (s : GameState) (tileId : Int)
    (_hphase : s.gameState = Phase.input)
    (_hnew : tileId ∉ s.playerInput) :
    ((s.isInCombo = true ∧ s.sequence[s.playerInput.length]? = some tileId) →
      (applyClickScoring s tileId).score = s.score + 2 ∧
      (applyClickScoring s tileId).isInCombo = true) ∧
    (¬(s.isInCombo = true ∧ s.sequence[s.playerInput.length]? = some tileId) →
      (applyClickScoring s tileId).isInCombo = false ∧
      (tileId ∈ s.sequence → (applyClickScoring s tileId).score = s.score + 1) ∧
      (tileId ∉ s.sequence → (applyClickScoring s tileId).score = s.score)) :=
  applyClickScoring_cases s tileId

/-- Witness for C1 at a concrete combo hit: clicking `2` first against the
sequence `[2, 5, 8]` scores `+2`. -/
theorem c1_scoring_witness :
    (applyClickScoring exS1 2).score = exS1.score + 2 ∧
    (applyClickScoring exS1 2).isInCombo = true :=
  (c1_scoring exS1 2 (by decide) (by decide)).1 ⟨by decide, by decide⟩

/-- C6: `#generateSequence` over a nodup tile id set of `gridSize²` tiles
produces `min numTilesToLight gridSize²` pairwise-distinct ids, all drawn
from the tile ids; in particular it truncates to `gridSize²` when
`numTilesToLight` is larger. -/
theorem c6_generateSequence (c : Nat → Nat) (s : GameState)
    (hids : (s.tiles.map Tile.id).Nodup)
    (hlen : s.tiles.length = s.gridSize * s.gridSize) :
    (generateSequence c s).sequence.length =
      min s.numTilesToLight (s.gridSize * s.gridSize) ∧
    (generateSequence c s).sequence.Nodup ∧
    (∀ x ∈ (generateSequence c s).sequence, x ∈ s.tiles.map Tile.id) := by
  refine ⟨?_, drawSeq_nodup c _ 0 _ hids, fun x hx => drawSeq_subset c _ 0 _ x hx⟩
  show (drawSeq c 0 s.numTilesToLight (s.tiles.map Tile.id)).length = _
  rw [drawSeq_length, List.length_map, hlen]

/-- Witness for C6 on the freshly constructed service state. -/
theorem c6_witness :
    (generateSequence exC initialState).sequence.length = 3 ∧
    (generateSequence exC initialState).sequence.Nodup :=
  ⟨(c6_generateSequence exC initialState (by decide) (by decide)).1,
   (c6_generateSequence exC initialState (by decide) (by decide)).2.1⟩

/-- C7: `initializeGrid` produces exactly `gridSize²` tiles with sequential
ids `0..gridSize²-1`, all five flags false on every tile, and clears
`PlayerInput`. -/
theorem c7_initializeGrid (s : GameState) :
    (initializeGrid s).tiles.length = s.gridSize * s.gridSize ∧
    (initializeGrid s).tiles.map Tile.id =
      (List.range (s.gridSize * s.gridSize)).map Int.ofNat ∧
    (∀ t ∈ (initializeGrid s).tiles,
      t.lit = false ∧ t.selectedByPlayer = false ∧ t.isCorrectAndClicked = false ∧
      t.isCorrectAndNotClicked = false ∧ t.isIncorrectAndClicked = false) ∧
    (initializeGrid s).playerInput = [] := by
  refine ⟨by simp [initializeGrid], ?_, ?_, rfl⟩
  · show (List.map freshTile (List.range (s.gridSize * s.gridSize))).map Tile.id = _
    rw [List.map_map]
    rfl
  · intro t ht
    simp only [initializeGrid, List.mem_map] at ht
    obtain ⟨i, -, rfl⟩ := ht
    exact ⟨rfl, rfl, rfl, rfl, rfl⟩

/-- Witness for C7 on the freshly constructed service state. -/
theorem c7_witness :
    (initializeGrid initialState).tiles.length = 9 ∧
    (initializeGrid initialState).playerInput = [] :=
  ⟨(c7_initializeGrid initialState).1, (c7_initializeGrid initialState).2.2.2⟩

/-- C8: a click whose id is already in `PlayerInput`, or made in any phase
other than `input`, is a complete no-op: the whole state (score,
`PlayerInput`, phase, every tile flag) is unchanged. -/
theorem c8_noop (c : Nat → Nat) (s : GameState) (tileId : Int)
    (h : s.gameState ≠ Phase.input ∨ tileId ∈ s.playerInput) :
    handlePlayerTileClick c s tileId = s := by
  unfold handlePlayerTileClick
  rcases h with h | h
  · rw [if_pos h]
  · by_cases hp : s.gameState ≠ Phase.input
    · rw [if_pos hp]
    · rw [if_neg hp, if_pos h]

/-- Witness for C8: a click in phase `idle` does nothing. -/
theorem c8_witness : handlePlayerTileClick exC initialState 0 = initialState :=
  c8_noop exC initialState 0 (Or.inl (by decide))

/-- C2: round evaluation succeeds exactly when `PlayerInput` and `Sequence`
are equal as sets (same length, same elements, order irrelevant); on success
the level and `numTilesToLight` are each incremented, `gridSize` grows by one
exactly when the incremented `numTilesToLight` exceeds `gridSize²/2`, the
grid is re-initialized at the (possibly new) size, and a new round starts in
phase `sequence` with empty input and a fresh combo. -/
theorem c2_checkRound (c : Nat → Nat) (s : GameState) :
    (correctSelections s ↔
      (s.playerInput.length = s.sequence.length ∧
        ∀ x : Int, x ∈ s.playerInput ↔ x ∈ s.sequence)) ∧
    (correctSelections s →
      (checkRound c s).currentLevel = s.currentLevel + 1 ∧
      (checkRound c s).numTilesToLight = s.numTilesToLight + 1 ∧
      (checkRound c s).gridSize =
        (if 2 * (s.numTilesToLight + 1) > s.gridSize * s.gridSize
          then s.gridSize + 1 else s.gridSize) ∧
      (checkRound c s).tiles =
        (List.range ((checkRound c s).gridSize * (checkRound c s).gridSize)).map
          freshTile ∧
      (checkRound c s).playerInput = [] ∧
      (checkRound c s).isInCombo = true ∧
      (checkRound c s).gameState = Phase.sequence) := by
  constructor
  · unfold correctSelections
    constructor
    · rintro ⟨h1, hlen, h2⟩
      exact ⟨hlen, fun x => ⟨fun hx => h1 x hx, fun hx => h2 x hx⟩⟩
    · rintro ⟨hlen, h⟩
      exact ⟨fun x hx => (h x).mp hx, hlen, fun x hx => (h x).mpr hx⟩
  · intro hc
    have hc0 : correctSelections { s with gameState := Phase.checking } := hc
    by_cases hg : 2 * (s.numTilesToLight + 1) > s.gridSize * s.gridSize <;>
      simp [checkRound, nextRound, generateSequence, initializeGrid, hc0, hg,
        List.map_map, resetTileFlags, freshTile]

/-- Witness for C2: evaluating the set-equal but out-of-order input
`[2, 0, 1]` against the sequence `[0, 1, 2]` advances the level. -/
theorem c2_witness :
    correctSelections exS2 ∧ (checkRound exC exS2).currentLevel = 2 ∧
    (checkRound exC exS2).gridSize = 3 ∧ (checkRound exC exS2).gameState = Phase.sequence := by
  have h := (c2_checkRound exC exS2).2 (by decide)
  exact ⟨by decide, h.1, by decide, h.2.2.2.2.2.2⟩

/-- C3: on a failed round evaluation the combo is dropped, the phase becomes
`over`, and every tile's three outcome flags are set exactly by the
membership of its id in `Sequence` and `PlayerInput` (so all three are false
when the id is in neither). -/
theorem c3_checkRound_failure (c : Nat → Nat) (s : GameState)
    (hc : ¬ correctSelections s) :
    (checkRound c s).isInCombo = false ∧
    (checkRound c s).gameState = Phase.over ∧
    ∀ t ∈ (checkRound c s).tiles,
      (t.isCorrectAndClicked = true ↔ (t.id ∈ s.sequence ∧ t.id ∈ s.playerInput)) ∧
      (t.isCorrectAndNotClicked = true ↔ (t.id ∈ s.sequence ∧ t.id ∉ s.playerInput)) ∧
      (t.isIncorrectAndClicked = true ↔ (t.id ∉ s.sequence ∧ t.id ∈ s.playerInput)) := by
  have hc0 : ¬ correctSelections { s with gameState := Phase.checking } := hc
  refine ⟨?_, ?_, ?_⟩
  · simp [checkRound, hc0]
  · simp [checkRound, hc0]
  · intro t ht
    simp only [checkRound, if_neg hc0, List.mem_map] at ht
    obtain ⟨t0, -, rfl⟩ := ht
    simp [markOutcome]

/-- Witness for C3: the full-length mismatching input `[0, 5]` against the
sequence `[0, 1]` ends the game. -/
theorem c3_witness :
    (checkRound exC exS3).isInCombo = false ∧
    (checkRound exC exS3).gameState = Phase.over :=
  ⟨(c3_checkRound_failure exC exS3 (by decide)).1,
   (c3_checkRound_failure exC exS3 (by decide)).2.1⟩

/-! ## Helper lemmas about `checkRound` and `nextRound` -/

theorem checkRound_failure_frame (c : Nat → Nat) (s : GameState)
    (hc : ¬ correctSelections s) :
    (checkRound c s).playerInput = s.playerInput ∧
    (checkRound c s).score = s.score ∧
    (checkRound c s).isInCombo = false ∧
    (checkRound c s).gameState = Phase.over ∧
    (checkRound c s).tiles.map Tile.selectedByPlayer =
      s.tiles.map Tile.selectedByPlayer ∧
    (checkRound c s).tiles.map Tile.lit = s.tiles.map Tile.lit ∧
    (checkRound c s).tiles.length = s.tiles.length ∧
    (checkRound c s).currentLevel = s.currentLevel ∧
    (checkRound c s).gridSize = s.gridSize ∧
    (checkRound c s).numTilesToLight = s.numTilesToLight := by
  have hc0 : ¬ correctSelections { s with gameState := Phase.checking } := hc
  simp [checkRound, hc0, List.map_map, markOutcome, Function.comp]

theorem nextRound_lit (c : Nat → Nat) (s : GameState) :
    ∀ t ∈ (nextRound c s).tiles, t.lit = false := by
  intro t ht
  simp only [nextRound, generateSequence, List.mem_map] at ht
  obtain ⟨t0, -, rfl⟩ := ht
  rfl

theorem checkRound_lit (c : Nat → Nat) (s : GameState)
    (h : ∀ t ∈ s.tiles, t.lit = false) :
    ∀ t ∈ (checkRound c s).tiles, t.lit = false := by
  by_cases hc : correctSelections s
  · have hc0 : correctSelections { s with gameState := Phase.checking } := hc
    intro t ht
    simp only [checkRound, if_pos hc0] at ht
    exact nextRound_lit c _ t ht
  · have hc0 : ¬ correctSelections { s with gameState := Phase.checking } := hc
    intro t ht
    simp only [checkRound, if_neg hc0, List.mem_map] at ht
    obtain ⟨t0, ht0, rfl⟩ := ht
    exact h t0 ht0

theorem checkRound_grid_invariant (c : Nat → Nat) (s : GameState)
    (hinv : s.tiles.length = s.gridSize * s.gridSize) :
    (checkRound c s).tiles.length =
      (checkRound c s).gridSize * (checkRound c s).gridSize := by
  by_cases hc : correctSelections s
  · have hc0 : correctSelections { s with gameState := Phase.checking } := hc
    by_cases hg : 2 * (s.numTilesToLight + 1) > s.gridSize * s.gridSize <;>
      simp [checkRound, nextRound, generateSequence, initializeGrid, hc0, hg]
  · have hc0 : ¬ correctSelections { s with gameState := Phase.checking } := hc
    simp [checkRound, hc0, hinv]

/-- Counterexample to C4 as stated: along a real game trace the grid grows to
4×4 (16 tiles); `resetGame` then resets `gridSize` to 3 without rebuilding the
tile array, so `len(Tiles) = gridSize²` fails right after `resetGame`. -/
theorem c4_counterexample :
    (resetGame exGrown).tiles.length ≠
      (resetGame exGrown).gridSize * (resetGame exGrown).gridSize := by decide

/-- C4 (amended): the invariant `len(Tiles) = gridSize²` is established by
`startGame` and preserved by `handlePlayerTileClick` (including any round
evaluation it triggers), but `resetGame` leaves the tile array unchanged
while resetting `gridSize` to 3, so after `resetGame` the invariant holds
only if the grid already had 9 tiles. -/
theorem c4_amended (c : Nat → Nat) (s : GameState) (tileId : Int)
    (hinv : s.tiles.length = s.gridSize * s.gridSize) :
    (startGame c s).tiles.length =
      (startGame c s).gridSize * (startGame c s).gridSize ∧
    (handlePlayerTileClick c s tileId).tiles.length =
      (handlePlayerTileClick c s tileId).gridSize *
        (handlePlayerTileClick c s tileId).gridSize ∧
    (resetGame s).tiles = s.tiles ∧ (resetGame s).gridSize = 3 := by
  refine ⟨?_, ?_, rfl, rfl⟩
  · simp [startGame, nextRound, generateSequence, initializeGrid]
  · simp only [handlePlayerTileClick]
    split_ifs with h1 h2 h3
    · exact hinv
    · exact hinv
    · have hf := applyClickScoring_frame s tileId
      have hlen : (applyClickScoring s tileId).tiles.length =
          (applyClickScoring s tileId).gridSize * (applyClickScoring s tileId).gridSize := by
        rw [hf.2.2.2.2.1, hf.2.2.2.2.2.2, List.length_map]
        exact hinv
      exact checkRound_grid_invariant c _ hlen
    · have hf := applyClickScoring_frame s tileId
      rw [hf.2.2.2.2.1, hf.2.2.2.2.2.2, List.length_map]
      exact hinv

/-- Witness for C4 (amended) on the freshly constructed service state. -/
theorem c4_witness :
    (startGame exC initialState).tiles.length = 9 ∧
    (resetGame initialState).tiles = initialState.tiles := by
  have h := c4_amended exC initialState 0 (by decide)
  exact ⟨by rw [h.1]; decide, h.2.2.1⟩

/-- Counterexample to C5 as stated: in `exS5` (phase `input`, sequence
`[2, 5, 8]`, empty input) clicking tile `2` leaves the input shorter than the
sequence, yet the Session field `score` changes (from 0 to 2). -/
theorem c5_counterexample :
    (handlePlayerTileClick exC exS5 2).playerInput.length ≠ exS5.sequence.length ∧
    (handlePlayerTileClick exC exS5 2).score ≠ exS5.score := by decide

/-- C5 (amended): a `handlePlayerTileClick` that does not complete the round
leaves the Session fields `currentLevel`, `gridSize`, `numTilesToLight` (and
the phase) unchanged; `score`, however, is also mutated by the per-click
scoring, not only on round success. -/
theorem c5_amended (c : Nat → Nat) (s : GameState) (tileId : Int)
    (hlen : s.playerInput.length + 1 ≠ s.sequence.length) :
    (handlePlayerTileClick c s tileId).currentLevel = s.currentLevel ∧
    (handlePlayerTileClick c s tileId).gridSize = s.gridSize ∧
    (handlePlayerTileClick c s tileId).numTilesToLight = s.numTilesToLight ∧
    (handlePlayerTileClick c s tileId).gameState = s.gameState := by
  simp only [handlePlayerTileClick]
  split_ifs with h1 h2 h3
  · exact ⟨rfl, rfl, rfl, rfl⟩
  · exact ⟨rfl, rfl, rfl, rfl⟩
  · have hf := applyClickScoring_frame s tileId
    rw [hf.1, hf.2.1] at h3
    simp only [List.length_append, List.length_cons, List.length_nil] at h3
    exact absurd h3 hlen
  · have hf := applyClickScoring_frame s tileId
    exact ⟨hf.2.2.2.1, hf.2.2.2.2.1, hf.2.2.2.2.2.1, hf.2.2.1⟩

/-- Witness for C5 (amended): a first click against a length-3 sequence. -/
theorem c5_witness :
    (handlePlayerTileClick exC exS5 2).currentLevel = 1 ∧
    (handlePlayerTileClick exC exS5 2).gridSize = 3 :=
  ⟨(c5_amended exC exS5 2 (by decide)).1, (c5_amended exC exS5 2 (by decide)).2.1⟩

/-- C9: a click during phase `input` on an id that belongs to no tile (the
sequence being drawn from tile ids) is still appended to `PlayerInput`,
changes no tile's `selectedByPlayer` flag, adds 0 to the score, sets the
combo to false, and still counts toward the completion trigger — if it makes
the input full-length, the round is evaluated, fails, and the phase becomes
`over`. -/
theorem c9_ghost_click (c : Nat → Nat) (s : GameState) (tileId : Int)
    (hphase : s.gameState = Phase.input)
    (hnew : tileId ∉ s.playerInput)
    (hghost : tileId ∉ s.tiles.map Tile.id)
    (hseq : ∀ x ∈ s.sequence, x ∈ s.tiles.map Tile.id) :
    (handlePlayerTileClick c s tileId).playerInput = s.playerInput ++ [tileId] ∧
    (handlePlayerTileClick c s tileId).tiles.map Tile.selectedByPlayer =
      s.tiles.map Tile.selectedByPlayer ∧
    (handlePlayerTileClick c s tileId).score = s.score ∧
    (handlePlayerTileClick c s tileId).isInCombo = false ∧
    (s.playerInput.length + 1 = s.sequence.length →
      (handlePlayerTileClick c s tileId).gameState = Phase.over) := by
  have hmem : tileId ∉ s.sequence := fun h => hghost (hseq _ h)
  have hf := applyClickScoring_frame s tileId
  have hcases := (applyClickScoring_cases s tileId).2 (by
    rintro ⟨-, hsome⟩
    obtain ⟨hlt, hget⟩ := List.getElem?_eq_some.mp hsome
    exact hmem (hget ▸ List.getElem_mem hlt))
  have hscore : (applyClickScoring s tileId).score = s.score := hcases.2.2 hmem
  have htiles : (applyClickScoring s tileId).tiles = s.tiles := by
    rw [hf.2.2.2.2.2.2]
    have hid : ∀ t ∈ s.tiles,
        (if t.id = tileId then { t with selectedByPlayer := true } else t) = id t := by
      intro t ht
      have hne : ¬ t.id = tileId := by
        intro he
        apply hghost
        rw [← he]
        exact List.mem_map_of_mem Tile.id ht
      rw [if_neg hne]
      rfl
    rw [List.map_congr_left hid, List.map_id]
  simp only [handlePlayerTileClick]
  rw [if_neg fun h => h hphase, if_neg hnew]
  by_cases hdone : (applyClickScoring s tileId).playerInput.length =
      (applyClickScoring s tileId).sequence.length
  · rw [if_pos hdone]
    have hnc : ¬ correctSelections (applyClickScoring s tileId) := by
      rintro ⟨h1, -, -⟩
      refine hmem ?_
      have : tileId ∈ (applyClickScoring s tileId).playerInput := by
        rw [hf.1]; exact List.mem_append_right _ (by simp)
      exact hf.2.1 ▸ h1 tileId this
    have hcf := checkRound_failure_frame c _ hnc
    refine ⟨hcf.1.trans hf.1, ?_, hcf.2.1.trans hscore, hcf.2.2.1,
      fun _ => hcf.2.2.2.1⟩
    rw [hcf.2.2.2.2.1, htiles]
  · rw [if_neg hdone]
    refine ⟨hf.1, by rw [htiles], hscore, hcases.1, fun h => absurd ?_ hdone⟩
    rw [hf.1, hf.2.1, List.length_append]
    simpa using h

/-- Witness for C9: in `exS9` the click on the nonexistent tile `-1`
completes the round and ends the game with no score change. -/
theorem c9_witness :
    (handlePlayerTileClick exC exS9 (-1)).playerInput = [0, -1] ∧
    (handlePlayerTileClick exC exS9 (-1)).score = 0 ∧
    (handlePlayerTileClick exC exS9 (-1)).gameState = Phase.over := by
  have h := c9_ghost_click exC exS9 (-1) (by decide) (by decide) (by decide)
    (by decide)
  exact ⟨h.1, h.2.2.1, h.2.2.2.2 (by decide)⟩

/-- C10: no core operation produces a lit tile: `initializeGrid`, `nextRound`
and `startGame` yield only unlit tiles, `resetGame` leaves the tile array
untouched, and `handlePlayerTileClick` (including round evaluation, whose
failure-path annotation preserves `lit`) keeps every tile unlit. -/
theorem c10_lit (c : Nat → Nat) (s : GameState) (tileId : Int) :
    (∀ t ∈ (initializeGrid s).tiles, t.lit = false) ∧
    (∀ t ∈ (nextRound c s).tiles, t.lit = false) ∧
    (∀ t ∈ (startGame c s).tiles, t.lit = false) ∧
    (resetGame s).tiles = s.tiles ∧
    ((∀ t ∈ s.tiles, t.lit = false) →
      ∀ t ∈ (handlePlayerTileClick c s tileId).tiles, t.lit = false) := by
  refine ⟨?_, nextRound_lit c s, ?_, rfl, ?_⟩
  · intro t ht
    simp only [initializeGrid, List.mem_map] at ht
    obtain ⟨i, -, rfl⟩ := ht
    rfl
  · intro t ht
    exact nextRound_lit c _ t ht
  · intro hlit
    simp only [handlePlayerTileClick]
    split_ifs with h1 h2 h3
    · exact hlit
    · exact hlit
    · apply checkRound_lit
      intro t ht
      rw [(applyClickScoring_frame s tileId).2.2.2.2.2.2] at ht
      simp only [List.mem_map] at ht
      obtain ⟨t0, ht0, rfl⟩ := ht
      by_cases he : t0.id = tileId
      · simpa [he] using hlit t0 ht0
      · simpa [he] using hlit t0 ht0
    · intro t ht
      rw [(applyClickScoring_frame s tileId).2.2.2.2.2.2] at ht
      simp only [List.mem_map] at ht
      obtain ⟨t0, ht0, rfl⟩ := ht
      by_cases he : t0.id = tileId
      · simpa [he] using hlit t0 ht0
      · simpa [he] using hlit t0 ht0

/-- Witness for C10: a concrete clicked state still has an unlit first
tile. -/
theorem c10_witness :
    ((handlePlayerTileClick exC exS1 2).tiles.getD 0 (freshTile 0)).lit = false := by
  have h := (c10_lit exC exS1 2).2.2.2.2 (by decide)
  exact h _ (by decide)

end Mnemonic
